import Mathlib

/-!
Shallow embedding of the profile route logic of the DevConnector API
(`src/routes/api/profile.js`) and proofs about it.

The JavaScript array/string primitives the route uses
(`Array.prototype.indexOf`, `Array.prototype.splice`,
`Array.prototype.unshift`, `String.prototype.split` on a one-character
separator, `String.prototype.trim`) are modelled explicitly, including
the negative-index behaviour of `splice`.
-/

namespace DevConnector

/-- JS `Array.prototype.indexOf` on an array of strings: the index of the
first occurrence of `t`, or `-1` when `t` does not occur. -/
def jsIndexOf : List String → String → Int
  | [], _ => -1
  | x :: xs, t =>
    if x = t then 0
    else if jsIndexOf xs t < 0 then -1 else jsIndexOf xs t + 1

/-- JS `arr.splice(start, 1)`: delete one element at `start`, where a
negative `start` counts from the end (clamped at 0) and a `start` past the
end deletes nothing. -/
def jsSpliceDelete1 {α : Type} (l : List α) (start : Int) : List α :=
  let s : Nat := if start < 0 then (l.length + start).toNat else min start.toNat l.length
  l.take s ++ l.drop (s + 1)

/-- An embedded sub-document of a profile (an experience or education
entry): the generated identifier `id` plus the raw request-body fields it
was created from (`{...req.body}`). -/
structure SubEntry where
  id : String
  data : List (String × String)
deriving DecidableEq

/-- The shared logic of `DELETE /experience/:exp_id` and
`DELETE /education/:edu_id`:
`const removeIndex = list.map(item => item.id).indexOf(target);
list.splice(removeIndex, 1);` -/
def removeById (l : List SubEntry) (target : String) : List SubEntry :=
  jsSpliceDelete1 l (jsIndexOf (l.map SubEntry.id) target)

/-- JS `String.prototype.split` with a one-character separator, on the
character list of the string: empty segments are kept, and splitting the
empty string yields one empty segment. -/
def splitOnChar (sep : Char) : List Char → List (List Char)
  | [] => [[]]
  | c :: cs =>
    if c = sep then [] :: splitOnChar sep cs
    else
      match splitOnChar sep cs with
      | [] => [[c]]
      | t :: ts => (c :: t) :: ts

/-- The whitespace characters JS `String.prototype.trim` strips (the ASCII
ones that can occur here). -/
def isJsSpace (c : Char) : Bool :=
  c = ' ' || c = '\t' || c = '\n' || c = '\r' || c = '\x0b' || c = '\x0c'

/-- JS `String.prototype.trim` on a character list: drop leading and
trailing whitespace. -/
def trimChars (l : List Char) : List Char :=
  ((l.dropWhile isJsSpace).reverse.dropWhile isJsSpace).reverse

/-- JS `s.split(c)` for a one-character separator, producing strings. -/
def jsSplit (sep : Char) (s : String) : List String :=
  (splitOnChar sep s.data).map String.mk

/-- JS `s.trim()`. -/
def jsTrim (s : String) : String :=
  String.mk (trimChars s.data)

/-- The skills projection of `POST /profile`:
`skills.split(',').map(skill => skill.trim())`. -/
def projectSkills (s : String) : List String :=
  (jsSplit ',' s).map jsTrim

/-- Joining tokens with a separator character (inverse of `splitOnChar` on
separator-free tokens); used to state the tokenizer theorem. -/
def joinChar (sep : Char) : List (List Char) → List Char
  | [] => []
  | [t] => t
  | t :: ts => t ++ sep :: joinChar sep ts

/-- Joining strings with commas; used to state the tokenizer theorem. -/
def joinComma : List String → String
  | [] => ""
  | [t] => t
  | t :: ts => t ++ "," ++ joinComma ts

/-! ### The profile document -/

/-- The nested `social` object of a profile document. The upsert handler
always rebuilds it from scratch (`profileFields.social = {}`), adding only
the keys supplied in the request. -/
structure Social where
  youtube : Option String
  facebook : Option String
  twitter : Option String
  instagram : Option String
  linkedin : Option String
deriving DecidableEq

/-- The empty social object `{}`. -/
def Social.empty : Social :=
  ⟨none, none, none, none, none⟩

/-- A stored Profile document (the Mongoose `Profile` model): owner
reference, optional scalar fields, tokenized skills, the nested social
object and the two embedded entry lists. -/
structure StoredProfile where
  user : String
  company : Option String
  website : Option String
  location : Option String
  bio : Option String
  status : Option String
  githubusername : Option String
  skills : Option (List String)
  social : Social
  experience : List SubEntry
  education : List SubEntry
deriving DecidableEq

/-- Effect of `DELETE /experience/:exp_id` on the loaded profile document:
map-ids, `indexOf`, `splice(removeIndex, 1)` on the experience list. -/
def removeExperienceFromProfile (p : StoredProfile) (target : String) : StoredProfile :=
  { p with experience := removeById p.experience target }

/-- Effect of `DELETE /education/:edu_id` on the loaded profile document:
map-ids, `indexOf`, `splice(removeIndex, 1)` on the education list. -/
def removeEducationFromProfile (p : StoredProfile) (target : String) : StoredProfile :=
  { p with education := removeById p.education target }

/-! ### Lemmas about `jsIndexOf` and `jsSpliceDelete1` -/

theorem jsIndexOf_nonneg : ∀ {ids : List String} {t : String}, t ∈ ids → 0 ≤ jsIndexOf ids t := by
  intro ids
  induction ids with
  | nil => intro t h; cases h
  | cons x xs ih =>
    intro t h
    by_cases hx : x = t
    · simp [jsIndexOf, hx]
    · have ht : t ∈ xs := by
        rcases List.mem_cons.mp h with h1 | h2
        · exact absurd h1.symm hx
        · exact h2
      have hr := ih ht
      simp only [jsIndexOf, if_neg hx]
      rw [if_neg (by omega)]
      omega

theorem jsIndexOf_lt_length : ∀ {ids : List String} {t : String},
    t ∈ ids → jsIndexOf ids t < ids.length := by
  intro ids
  induction ids with
  | nil => intro t h; cases h
  | cons x xs ih =>
    intro t h
    by_cases hx : x = t
    · simp [jsIndexOf, hx]
    · have ht : t ∈ xs := by
        rcases List.mem_cons.mp h with h1 | h2
        · exact absurd h1.symm hx
        · exact h2
      have hr := ih ht
      have hr0 := jsIndexOf_nonneg ht
      simp only [jsIndexOf, if_neg hx, List.length_cons]
      rw [if_neg (by omega)]
      push_cast
      omega

theorem jsIndexOf_not_mem : ∀ {ids : List String} {t : String},
    t ∉ ids → jsIndexOf ids t = -1 := by
  intro ids
  induction ids with
  | nil => intro t _; rfl
  | cons x xs ih =>
    intro t h
    have hx : ¬ x = t := fun he => h (he ▸ List.mem_cons_self x xs)
    have ht : t ∉ xs := fun hm => h (List.mem_cons_of_mem x hm)
    simp only [jsIndexOf, if_neg hx, ih ht]
    rfl

theorem jsSpliceDelete1_cons_succ {α : Type} (e : α) (es : List α) (k : Int) (hk : 0 ≤ k) :
    jsSpliceDelete1 (e :: es) (k + 1) = e :: jsSpliceDelete1 es k := by
  simp only [jsSpliceDelete1, List.length_cons]
  rw [if_neg (by omega), if_neg (by omega)]
  have h1 : (k + 1).toNat = k.toNat + 1 := by omega
  have h2 : min (k.toNat + 1) (es.length + 1) = min k.toNat es.length + 1 := by omega
  rw [h1, h2, List.take_succ_cons, List.drop_succ_cons]
  rfl

theorem removeById_eq_eraseP : ∀ (l : List SubEntry) (t : String),
    t ∈ l.map SubEntry.id → removeById l t = l.eraseP (fun e => e.id == t) := by
  intro l
  induction l with
  | nil => intro t h; cases h
  | cons e es ih =>
    intro t h
    by_cases he : e.id = t
    · have hidx : jsIndexOf ((e :: es).map SubEntry.id) t = 0 := by
        simp [jsIndexOf, he]
      rw [removeById, hidx, List.eraseP_cons]
      simp [jsSpliceDelete1, he]
    · have ht : t ∈ es.map SubEntry.id := by
        rcases List.mem_cons.mp h with h1 | h2
        · exact absurd h1.symm he
        · exact h2
      have hr0 := jsIndexOf_nonneg ht
      have hidx : jsIndexOf ((e :: es).map SubEntry.id) t
          = jsIndexOf (es.map SubEntry.id) t + 1 := by
        simp only [List.map_cons, jsIndexOf, if_neg he]
        rw [if_neg (by omega)]
      rw [removeById, hidx, jsSpliceDelete1_cons_succ e es _ hr0, List.eraseP_cons]
      have hc : (e.id == t) = false := by
        simp [he]
      rw [hc]
      exact congrArg (e :: ·) (ih t ht)

theorem removeById_no_match (l : List SubEntry) (t : String)
    (hne : l ≠ []) (h : t ∉ l.map SubEntry.id) :
    removeById l t = l.dropLast := by
  have h1 : jsIndexOf (l.map SubEntry.id) t = -1 := jsIndexOf_not_mem h
  have hl : 1 ≤ l.length := List.length_pos.mpr hne
  rw [removeById, h1]
  simp only [jsSpliceDelete1]
  rw [if_pos (by omega)]
  have h2 : ((l.length : Int) + (-1)).toNat = l.length - 1 := by omega
  have h3 : l.length - 1 + 1 = l.length := by omega
  rw [h2, h3, List.drop_length, List.append_nil, List.dropLast_eq_take]

/-! ### Claim theorems C2 and C3 -/

/-- C2: when the target list contains an entry with the target identifier,
`DELETE /experience/:exp_id` (resp. `/education/:edu_id`) removes exactly
the first entry whose identifier equals the target — the result is the
`eraseP` of the list at the first id match — and leaves the other list of
the profile untouched. -/
theorem remove_first_match (p : StoredProfile) (t : String) :
    (t ∈ p.experience.map SubEntry.id →
      (removeExperienceFromProfile p t).experience
          = p.experience.eraseP (fun e => e.id == t) ∧
      (removeExperienceFromProfile p t).education = p.education) ∧
    (t ∈ p.education.map SubEntry.id →
      (removeEducationFromProfile p t).education
          = p.education.eraseP (fun e => e.id == t) ∧
      (removeEducationFromProfile p t).experience = p.experience) := by
  constructor
  · intro h
    exact ⟨removeById_eq_eraseP p.experience t h, rfl⟩
  · intro h
    exact ⟨removeById_eq_eraseP p.education t h, rfl⟩

/-- Concrete instance of `remove_first_match`: removing id `"b"` from the
experience list `[a, b, b, c]` deletes only the first `b`. -/
theorem remove_first_match_witness :
    (removeExperienceFromProfile
        ⟨"u1", none, none, none, none, none, none, none, Social.empty,
          [⟨"a", []⟩, ⟨"b", []⟩, ⟨"b", [("x", "y")]⟩, ⟨"c", []⟩], []⟩
        "b").experience
      = [⟨"a", []⟩, ⟨"b", [("x", "y")]⟩, ⟨"c", []⟩] := by
  have h := (remove_first_match
      ⟨"u1", none, none, none, none, none, none, none, Social.empty,
        [⟨"a", []⟩, ⟨"b", []⟩, ⟨"b", [("x", "y")]⟩, ⟨"c", []⟩], []⟩
      "b").1 (by decide)
  rw [h.1]
  decide

/-- C3: when the target list is non-empty and holds no entry with the
target identifier, the remove operation deletes the LAST entry of the list
(`indexOf` yields `-1` and `splice(-1, 1)` removes the final element)
rather than failing or leaving the list unchanged. -/
theorem remove_no_match_drops_last (p : StoredProfile) (t : String) :
    (p.experience ≠ [] → t ∉ p.experience.map SubEntry.id →
      (removeExperienceFromProfile p t).experience = p.experience.dropLast) ∧
    (p.education ≠ [] → t ∉ p.education.map SubEntry.id →
      (removeEducationFromProfile p t).education = p.education.dropLast) := by
  constructor
  · intro hne h
    exact removeById_no_match p.experience t hne h
  · intro hne h
    exact removeById_no_match p.education t hne h

/-- Concrete instance of `remove_no_match_drops_last`: removing the absent
id `"zzz"` from the education list `[a, b]` deletes `b`. -/
theorem remove_no_match_drops_last_witness :
    (removeEducationFromProfile
        ⟨"u1", none, none, none, none, none, none, none, Social.empty, [],
          [⟨"a", []⟩, ⟨"b", []⟩]⟩
        "zzz").education
      = [⟨"a", []⟩] := by
  have h := (remove_no_match_drops_last
      ⟨"u1", none, none, none, none, none, none, none, Social.empty, [],
        [⟨"a", []⟩, ⟨"b", []⟩]⟩
      "zzz").2 (by decide) (by decide)
  rw [h]
  decide

/-! ### Lemmas about the skills tokenizer -/

theorem splitOnChar_no_sep (sep : Char) :
    ∀ {l : List Char}, sep ∉ l → splitOnChar sep l = [l] := by
  intro l
  induction l with
  | nil => intro _; rfl
  | cons c cs ih =>
    intro h
    have hc : ¬ c = sep := fun he => h (he ▸ List.mem_cons_self c cs)
    have hcs : sep ∉ cs := fun hm => h (List.mem_cons_of_mem c hm)
    rw [splitOnChar, if_neg hc, ih hcs]

theorem splitOnChar_append_sep (sep : Char) :
    ∀ (t rest : List Char), sep ∉ t →
      splitOnChar sep (t ++ sep :: rest) = t :: splitOnChar sep rest := by
  intro t
  induction t with
  | nil =>
    intro rest _
    simp [splitOnChar]
  | cons c cs ih =>
    intro rest h
    have hc : ¬ c = sep := fun he => h (he ▸ List.mem_cons_self c cs)
    have hcs : sep ∉ cs := fun hm => h (List.mem_cons_of_mem c hm)
    rw [List.cons_append, splitOnChar, if_neg hc, ih rest hcs]

theorem splitOnChar_joinChar (sep : Char) :
    ∀ (toks : List (List Char)), toks ≠ [] → (∀ t ∈ toks, sep ∉ t) →
      splitOnChar sep (joinChar sep toks) = toks := by
  intro toks
  induction toks with
  | nil => intro h _; exact absurd rfl h
  | cons t ts ih =>
    intro _ hall
    cases ts with
    | nil =>
      rw [joinChar]
      exact splitOnChar_no_sep sep (hall t (List.mem_cons_self t []))
    | cons t2 ts2 =>
      have h1 : sep ∉ t := hall t (List.mem_cons_self t (t2 :: ts2))
      have h2 : ∀ x ∈ t2 :: ts2, sep ∉ x := fun x hx => hall x (List.mem_cons_of_mem t hx)
      have hne : t2 :: ts2 ≠ [] := by intro hx; cases hx
      have heq := ih hne h2
      rw [joinChar, splitOnChar_append_sep sep t _ h1, heq]
      intro hx
      cases hx

theorem joinComma_data :
    ∀ (toks : List String), (joinComma toks).data = joinChar ',' (toks.map String.data) := by
  intro toks
  induction toks with
  | nil => rfl
  | cons t ts ih =>
    cases ts with
    | nil => rfl
    | cons t2 ts2 =>
      show (t ++ "," ++ joinComma (t2 :: ts2)).data = _
      rw [String.data_append, String.data_append, ih, List.append_assoc]
      rfl

/-! ### Claim theorem C4 -/

/-- C4: the skills projection of `POST /profile`
(`skills.split(',').map(skill => skill.trim())`) splits the input on
commas and trims each token, preserving token order and retaining empty
tokens: joining any comma-free token list with commas and projecting it
yields exactly the trimmed tokens, `"a, b ,c"` projects to
`["a", "b", "c"]`, and empty tokens survive (`" ,a,"`). -/
theorem skills_projection (toks : List String) (hne : toks ≠ [])
    (hfree : ∀ t ∈ toks, ',' ∉ t.data) :
    projectSkills (joinComma toks) = toks.map jsTrim
    ∧ projectSkills "a, b ,c" = ["a", "b", "c"]
    ∧ projectSkills " ,a," = ["", "a", ""] := by
  refine ⟨?_, by decide, by decide⟩
  have hne2 : toks.map String.data ≠ [] := by
    intro hx
    exact hne (List.map_eq_nil_iff.mp hx)
  have hfree2 : ∀ l ∈ toks.map String.data, ',' ∉ l := by
    intro l hl
    rcases List.mem_map.mp hl with ⟨s, hs, hrfl⟩
    exact hrfl ▸ hfree s hs
  show ((splitOnChar ',' (joinComma toks).data).map String.mk).map jsTrim = toks.map jsTrim
  rw [joinComma_data, splitOnChar_joinChar ',' (toks.map String.data) hne2 hfree2,
    List.map_map, List.map_map]
  have hid : (jsTrim ∘ String.mk) ∘ String.data = jsTrim := funext fun _ => rfl
  rw [hid]

/-- Concrete instance of `skills_projection` at the token list
`["x", " y ", ""]`. -/
theorem skills_projection_witness :
    projectSkills (joinComma ["x", " y ", ""]) = ["x", " y ", ""].map jsTrim
    ∧ projectSkills "a, b ,c" = ["a", "b", "c"] := by
  have h := skills_projection ["x", " y ", ""] (by decide) (by decide)
  exact ⟨h.1, h.2.1⟩

/-! ### Request bodies, validation and responses -/

/-- A JSON request body: an association list of string-valued fields
(first binding wins, as in a JS object). -/
abbrev Body := List (String × String)

/-- Reading a field of `req.body` (destructuring / property access):
`none` models `undefined`. -/
def lookupField (b : Body) (f : String) : Option String :=
  (b.find? (fun kv => kv.1 == f)).map (fun kv => kv.2)

/-- JS truthiness of a possibly-absent string value: `undefined` and the
empty string are falsy, every other string is truthy. -/
def truthy : Option String → Bool
  | none => false
  | some s => !(s == "")

/-- `check(field, msg).not().isEmpty()` fails exactly when the field is
absent or the empty string. -/
def checkViolated (b : Body) (f : String) : Bool :=
  match lookupField b f with
  | none => true
  | some s => s == ""

/-- `validationResult(req).array()`: run every declared check and collect
an error entry `(msg, param)` for each violated one — all of them, not
just the first. -/
def runChecks (checks : List (String × String)) (b : Body) : List (String × String) :=
  checks.filterMap (fun c => if checkViolated b c.1 then some (c.2, c.1) else none)

/-- The checks of `POST /profile` (field, message). -/
def upsertChecks : List (String × String) :=
  [("status", "Status is Required"), ("skills", "Skill is Required")]

/-- The checks of `PUT /profile/experience`. -/
def experienceChecks : List (String × String) :=
  [("title", "Title is required"), ("company", "Company is required"),
    ("from", "From Date is required")]

/-- The checks of `PUT /profile/education`. -/
def educationChecks : List (String × String) :=
  [("school", "School is required"), ("degree", "Degree is required"),
    ("from", "From Date is required"), ("fieldofstudy", "Field of Study is required")]

/-- The JSON value a handler responds with. -/
inductive ResBody where
  | profileJson : StoredProfile → ResBody
  | profilesJson : List StoredProfile → ResBody
  | msg : String → ResBody
  | errorList : List (String × String) → ResBody
  | text : String → ResBody
deriving DecidableEq

/-- An HTTP response: status code and body. -/
structure HttpResponse where
  status : Nat
  body : ResBody
deriving DecidableEq

/-! ### The upsert projection (`POST /profile`) -/

/-- `if (v) profileFields.x = v;` — the field is kept only when truthy. -/
def keepIfTruthy (v : Option String) : Option String :=
  if truthy v then v else none

/-- `if (skills) profileFields.skills = skills.split(',').map(...)`. -/
def projectSkillsField (v : Option String) : Option (List String) :=
  if truthy v then v.map projectSkills else none

/-- `profileFields.social = {}` followed by the five
`if (key) profileFields.social.key = key;` assignments: the social object
is rebuilt from scratch from the request, never read from the store. -/
def buildSocial (b : Body) : Social :=
  { youtube := keepIfTruthy (lookupField b "youtube")
    facebook := keepIfTruthy (lookupField b "facebook")
    twitter := keepIfTruthy (lookupField b "twitter")
    instagram := keepIfTruthy (lookupField b "instagram")
    linkedin := keepIfTruthy (lookupField b "linkedin") }

/-- The `profileFields` object built by `POST /profile`: `user` and
`social` are always present; each scalar field is present only when the
request supplied it truthy; `skills` is tokenized. -/
structure ProfileFields where
  user : String
  company : Option String
  website : Option String
  location : Option String
  bio : Option String
  status : Option String
  githubusername : Option String
  skills : Option (List String)
  social : Social
deriving DecidableEq

/-- Building `profileFields` from `req.user.id` and `req.body`. -/
def buildProfileFields (uid : String) (b : Body) : ProfileFields :=
  { user := uid
    company := keepIfTruthy (lookupField b "company")
    website := keepIfTruthy (lookupField b "website")
    location := keepIfTruthy (lookupField b "location")
    bio := keepIfTruthy (lookupField b "bio")
    status := keepIfTruthy (lookupField b "status")
    githubusername := keepIfTruthy (lookupField b "githubusername")
    skills := projectSkillsField (lookupField b "skills")
    social := buildSocial b }

/-- `new` value of an optional field under `$set`: a key present in the
`$set` document overwrites, an absent key leaves the stored value. -/
def setOr {α : Type} (new old : Option α) : Option α :=
  match new with
  | some v => some v
  | none => old

/-- `Profile.findOneAndUpdate({user}, { $set: profileFields })` applied to
the matched document: the keys of `profileFields` overwrite; `user` and
`social` are always keys (so the social object is replaced wholesale);
`experience` and `education` are never keys, so they stay. -/
def applySet (p : StoredProfile) (f : ProfileFields) : StoredProfile :=
  { user := f.user
    company := setOr f.company p.company
    website := setOr f.website p.website
    location := setOr f.location p.location
    bio := setOr f.bio p.bio
    status := setOr f.status p.status
    githubusername := setOr f.githubusername p.githubusername
    skills := setOr f.skills p.skills
    social := f.social
    experience := p.experience
    education := p.education }

/-- `new Profile(profileFields)`: a fresh document from the projected
fields, with empty entry lists. -/
def newProfileDoc (f : ProfileFields) : StoredProfile :=
  { user := f.user
    company := f.company
    website := f.website
    location := f.location
    bio := f.bio
    status := f.status
    githubusername := f.githubusername
    skills := f.skills
    social := f.social
    experience := []
    education := [] }

/-! ### The record store -/

/-- The Profile collection, as a sequence of documents. -/
abbrev Store := List StoredProfile

/-- `Profile.findOne({ user: uid })`: the first document whose owner
reference matches. -/
def findOneByUser (st : Store) (uid : String) : Option StoredProfile :=
  st.find? (fun p => p.user == uid)

/-- `Profile.findOneAndUpdate({ user: uid }, { $set: f })`: apply the
update to the first matching document, leaving the rest untouched. -/
def updateFirstByUser : Store → String → ProfileFields → Store
  | [], _, _ => []
  | p :: ps, uid, f =>
    if p.user == uid then applySet p f :: ps else p :: updateFirstByUser ps uid f

/-- `profile.save()` of a document loaded with `findOne({ user: uid })`:
persist the modified document in place of the first match. -/
def replaceFirstByUser : Store → String → StoredProfile → Store
  | [], _, _ => []
  | p :: ps, uid, q =>
    if p.user == uid then q :: ps else p :: replaceFirstByUser ps uid q

/-! ### Handlers -/

/-- `POST /profile`: validate (collect-all), then find-by-owner; update
the existing document via `$set` when found (`new: true` returns the
updated document), otherwise create and append a fresh one. -/
def postProfileHandler (st : Store) (uid : String) (b : Body) : HttpResponse × Store :=
  let errs := runChecks upsertChecks b
  if errs = [] then
    let f := buildProfileFields uid b
    match findOneByUser st uid with
    | some p => (⟨200, ResBody.profileJson (applySet p f)⟩, updateFirstByUser st uid f)
    | none => (⟨200, ResBody.profileJson (newProfileDoc f)⟩, st ++ [newProfileDoc f])
  else (⟨400, ResBody.errorList errs⟩, st)

/-- `profile.experience.unshift(newExp)`. -/
def addExperience (p : StoredProfile) (e : SubEntry) : StoredProfile :=
  { p with experience := e :: p.experience }

/-- `profile.education.unshift(newEdu)`. -/
def addEducation (p : StoredProfile) (e : SubEntry) : StoredProfile :=
  { p with education := e :: p.education }

/-- `PUT /profile/experience`: validate (collect-all), load the profile,
unshift the new entry (`{...req.body}` plus the generated id `fresh`) and
save. A missing profile makes `profile.experience` throw, which the inner
catch turns into a 500. -/
def putExperienceHandler (st : Store) (uid : String) (b : Body) (fresh : String) :
    HttpResponse × Store :=
  let errs := runChecks experienceChecks b
  if errs = [] then
    match findOneByUser st uid with
    | some p =>
      (⟨200, ResBody.profileJson (addExperience p ⟨fresh, b⟩)⟩,
        replaceFirstByUser st uid (addExperience p ⟨fresh, b⟩))
    | none => (⟨500, ResBody.text "Server Error"⟩, st)
  else (⟨400, ResBody.errorList errs⟩, st)

/-- `PUT /profile/education`: same shape as the experience handler. -/
def putEducationHandler (st : Store) (uid : String) (b : Body) (fresh : String) :
    HttpResponse × Store :=
  let errs := runChecks educationChecks b
  if errs = [] then
    match findOneByUser st uid with
    | some p =>
      (⟨200, ResBody.profileJson (addEducation p ⟨fresh, b⟩)⟩,
        replaceFirstByUser st uid (addEducation p ⟨fresh, b⟩))
    | none => (⟨500, ResBody.text "Server Error"⟩, st)
  else (⟨400, ResBody.errorList errs⟩, st)

/-- Outcome of `Profile.findOne({ user: req.params.user_id })`: a result
(possibly `null`), or a thrown error carrying its `kind` (Mongoose cast
failures on a malformed id throw with `kind = 'ObjectId'`). -/
inductive LookupOutcome where
  | ok : Option StoredProfile → LookupOutcome
  | threw : String → LookupOutcome
deriving DecidableEq

/-- `GET /profile/user/:user_id`: 200 with the profile; 400 `Profile not
found` when the lookup returns `null`; in the catch block, 400 `Profile
not found` when `err.kind === 'ObjectId'`, 500 otherwise. -/
def getProfileByUserId : LookupOutcome → HttpResponse
  | LookupOutcome.ok (some p) => ⟨200, ResBody.profileJson p⟩
  | LookupOutcome.ok none => ⟨400, ResBody.msg "Profile not found"⟩
  | LookupOutcome.threw kind =>
    if kind == "ObjectId" then ⟨400, ResBody.msg "Profile not found"⟩
    else ⟨500, ResBody.text "Server Error"⟩

/-! ### The GitHub proxy (`GET /profile/github/:username`) -/

/-- The `options.uri` template literal of the proxy, character for
character: it contains a literal newline and twelve spaces of indentation
inside the `sort` value, and the interpolation of the client secret is
written `client_secret${...}` — with no `=` between the parameter name
and the interpolated value. -/
def githubUri (username clientId clientSecret : String) : String :=
  "https://api.github.com/users/" ++ username
    ++ "/repos?per_page=5&sort=created: \n            asc&client_id=" ++ clientId
    ++ "&client_secret" ++ clientSecret

/-- The characters after the first occurrence of `c` (used to take the
query part of a URI). -/
def afterChar (c : Char) : List Char → List Char
  | [] => []
  | x :: xs => if x = c then xs else afterChar c xs

/-- The name of a `key=value` query segment: the characters before the
first `=` (the whole segment when it has no `=`). -/
def paramKeyOf (kv : List Char) : List Char :=
  kv.takeWhile (fun ch => !(ch = '='))

/-- The parameter names of a URI's query string, in order. -/
def paramNames (u : String) : List String :=
  (splitOnChar '&' (afterChar '?' u.data)).map (fun kv => String.mk (paramKeyOf kv))

/-- The value of the query parameter `name` of a URI, when a segment with
exactly that name exists. -/
def paramValue (u : String) (name : String) : Option String :=
  ((splitOnChar '&' (afterChar '?' u.data)).find?
      (fun kv => paramKeyOf kv == name.data)).map
    (fun kv => String.mk ((kv.dropWhile (fun ch => !(ch = '='))).drop 1))

/-- The `request` callback of the proxy: a non-200 upstream status is
answered with 404 `No Github Profile found`; on 200 the body is relayed. -/
def githubRespond (statusCode : Nat) (body : String) : HttpResponse :=
  if statusCode ≠ 200 then ⟨404, ResBody.msg "No Github Profile found"⟩
  else ⟨200, ResBody.text body⟩

/-! ### Catch blocks calling `console.err` -/

/-- What the handler can see of the ambient `console` object: whether a
member `err` exists on it. Node's `console` has `error` and `log` but no
`err`, so calling `console.err(...)` throws a `TypeError`. -/
structure JsConsole where
  hasErr : Bool
deriving DecidableEq

/-- Node's `console`: no `err` member. -/
def nodeConsole : JsConsole :=
  ⟨false⟩

/-- The exception raised by evaluating `console.err(...)` when `err` is
not a member. -/
def consoleErrFailure : String :=
  "TypeError: console.err is not a function"

/-- What a request observes from a handler: a response was sent, or an
exception escaped the handler (the async function's promise rejected and
no response was ever written). -/
inductive HandlerOutcome where
  | responded : HttpResponse → HandlerOutcome
  | uncaught : String → HandlerOutcome
deriving DecidableEq

/-- `GET /profile` (list all): on success, respond with the documents; on
a store failure the catch block first evaluates `console.err(err.message)`
— if that member is missing the catch block itself throws before
`res.status(500).send(...)` runs. -/
def getAllProfilesHandler (con : JsConsole) :
    Except String (List StoredProfile) → HandlerOutcome
  | Except.ok ps => HandlerOutcome.responded ⟨200, ResBody.profilesJson ps⟩
  | Except.error _ =>
    if con.hasErr then HandlerOutcome.responded ⟨500, ResBody.text "Server Error"⟩
    else HandlerOutcome.uncaught consoleErrFailure

/-- `DELETE /profile` (cascading delete): on success, respond
`User Deleted`; on a failure of any of the three store operations the
catch block evaluates `console.err(err.message)` first, with the same
hazard as in `getAllProfilesHandler`. -/
def deleteProfileHandler (con : JsConsole) : Except String Unit → HandlerOutcome
  | Except.ok _ => HandlerOutcome.responded ⟨200, ResBody.msg "User Deleted"⟩
  | Except.error _ =>
    if con.hasErr then HandlerOutcome.responded ⟨500, ResBody.text "Server Error"⟩
    else HandlerOutcome.uncaught consoleErrFailure

/-! ### Store lemmas -/

theorem findOneByUser_replaceFirst : ∀ (st : Store) (uid : String) (q : StoredProfile),
    (q.user == uid) = true → (findOneByUser st uid).isSome = true →
      findOneByUser (replaceFirstByUser st uid q) uid = some q := by
  intro st
  induction st with
  | nil => intro uid q _ h; cases h
  | cons p ps ih =>
    intro uid q hq h
    by_cases hp : (p.user == uid) = true
    · rw [replaceFirstByUser, if_pos hp]
      exact List.find?_cons_of_pos ps hq
    · rw [replaceFirstByUser, if_neg hp]
      have hpf : (p.user == uid) = false := by
        simpa using hp
      have h2 : (findOneByUser ps uid).isSome = true := by
        simp only [findOneByUser, List.find?_cons, hpf] at h
        exact h
      simp only [findOneByUser, List.find?_cons, hpf]
      exact ih uid q hq h2

theorem foldl_addExperience_experience :
    ∀ (es : List SubEntry) (q : StoredProfile),
      (es.foldl addExperience q).experience = es.reverse ++ q.experience := by
  intro es
  induction es with
  | nil => intro q; rfl
  | cons e es ih =>
    intro q
    rw [List.foldl_cons, ih (addExperience q e), List.reverse_cons, List.append_assoc]
    rfl

theorem foldl_addEducation_education :
    ∀ (es : List SubEntry) (q : StoredProfile),
      (es.foldl addEducation q).education = es.reverse ++ q.education := by
  intro es
  induction es with
  | nil => intro q; rfl
  | cons e es ih =>
    intro q
    rw [List.foldl_cons, ih (addEducation q e), List.reverse_cons, List.append_assoc]
    rfl

/-! ### Claim theorem C5 -/

/-- C5: a successful `PUT /profile/experience` (resp. `/education`)
stores the profile with the new entry at the head of the target list
(previous entries keep their relative order), and folding N successive
adds leaves the entries in reverse-insertion order, most recent first. -/
theorem add_entry_head_order (st : Store) (uid : String) (b : Body) (fresh : String)
    (p : StoredProfile)
    (hv : runChecks experienceChecks b = [])
    (hp : findOneByUser st uid = some p) :
    findOneByUser (putExperienceHandler st uid b fresh).2 uid
        = some (addExperience p ⟨fresh, b⟩)
    ∧ (addExperience p ⟨fresh, b⟩).experience = ⟨fresh, b⟩ :: p.experience
    ∧ (∀ (q : StoredProfile) (es : List SubEntry),
        (es.foldl addExperience q).experience = es.reverse ++ q.experience
        ∧ (es.foldl addEducation q).education = es.reverse ++ q.education)
    ∧ (∀ (st2 : Store) (uid2 : String) (b2 : Body) (fresh2 : String) (q : StoredProfile),
        runChecks educationChecks b2 = [] → findOneByUser st2 uid2 = some q →
          findOneByUser (putEducationHandler st2 uid2 b2 fresh2).2 uid2
            = some (addEducation q ⟨fresh2, b2⟩)) := by
  refine ⟨?_, rfl, fun q es => ⟨foldl_addExperience_experience es q,
    foldl_addEducation_education es q⟩, ?_⟩
  · have hp' : List.find? (fun r => r.user == uid) st = some p := hp
    have hpu := List.find?_some hp'
    have hqu : ((addExperience p ⟨fresh, b⟩).user == uid) = true := hpu
    have hsome : (findOneByUser st uid).isSome = true := by
      rw [hp]; rfl
    have h2 : (putExperienceHandler st uid b fresh).2
        = replaceFirstByUser st uid (addExperience p ⟨fresh, b⟩) := by
      rw [putExperienceHandler]
      rw [hv]
      simp only [reduceIte]
      rw [hp]
    rw [h2]
    exact findOneByUser_replaceFirst st uid _ hqu hsome
  · intro st2 uid2 b2 fresh2 q hv2 hq
    have hq' : List.find? (fun r => r.user == uid2) st2 = some q := hq
    have hqu2 := List.find?_some hq'
    have hqu : ((addEducation q ⟨fresh2, b2⟩).user == uid2) = true := hqu2
    have hsome : (findOneByUser st2 uid2).isSome = true := by
      rw [hq]; rfl
    have h2 : (putEducationHandler st2 uid2 b2 fresh2).2
        = replaceFirstByUser st2 uid2 (addEducation q ⟨fresh2, b2⟩) := by
      rw [putEducationHandler]
      rw [hv2]
      simp only [reduceIte]
      rw [hq]
    rw [h2]
    exact findOneByUser_replaceFirst st2 uid2 _ hqu hsome

/-- A sample stored profile used to instantiate the handler theorems. -/
def sampleProfile : StoredProfile :=
  ⟨"u1", some "Acme", none, none, none, some "dev", none, some ["js"],
    ⟨some "yt.com/a", none, none, none, none⟩, [⟨"e0", []⟩], [⟨"d0", []⟩]⟩

/-- Concrete instance of `add_entry_head_order`: a valid experience add on
`sampleProfile` stores the new entry at the head. -/
theorem add_entry_head_order_witness :
    findOneByUser (putExperienceHandler [sampleProfile] "u1"
        [("title", "Dev"), ("company", "Acme"), ("from", "2020")] "e1").2 "u1"
      = some (addExperience sampleProfile
          ⟨"e1", [("title", "Dev"), ("company", "Acme"), ("from", "2020")]⟩) :=
  (add_entry_head_order [sampleProfile] "u1"
    [("title", "Dev"), ("company", "Acme"), ("from", "2020")] "e1" sampleProfile
    (by decide) (by decide)).1

/-! ### Claim theorem C7 -/

/-- C7: `GET /profile/user/:user_id` answers 400 `Profile not found` both
when the lookup returns no document and when it throws a cast error of
kind `ObjectId` (malformed id); neither case is a 500. -/
theorem get_by_user_id_not_found :
    getProfileByUserId (LookupOutcome.ok none) = ⟨400, ResBody.msg "Profile not found"⟩
    ∧ getProfileByUserId (LookupOutcome.threw "ObjectId")
        = ⟨400, ResBody.msg "Profile not found"⟩
    ∧ (getProfileByUserId (LookupOutcome.ok none)).status ≠ 500
    ∧ (getProfileByUserId (LookupOutcome.threw "ObjectId")).status ≠ 500 := by
  decide

/-! ### Claim theorem C9 -/

/-- C9 evaluation: the single outbound request of the GitHub proxy is
capped at `per_page=5` and a non-200 upstream status is answered with 404,
but the query carries NO `client_secret` parameter — the missing `=` in
`client_secret${...}` fuses the secret into the parameter name — and the
`sort` value is `created: ` followed by a newline and indentation, not a
creation-order sort key. -/
theorem github_uri_malformed :
    paramNames (githubUri "octocat" "ID123" "SECRET456")
        = ["per_page", "sort", "client_id", "client_secretSECRET456"]
    ∧ "client_secret" ∉ paramNames (githubUri "octocat" "ID123" "SECRET456")
    ∧ paramValue (githubUri "octocat" "ID123" "SECRET456") "per_page" = some "5"
    ∧ paramValue (githubUri "octocat" "ID123" "SECRET456") "sort"
        = some "created: \n            asc"
    ∧ paramValue (githubUri "octocat" "ID123" "SECRET456") "client_secret" = none
    ∧ paramValue (githubUri "octocat" "ID123" "SECRET456") "client_id" = some "ID123"
    ∧ githubRespond 404 "x" = ⟨404, ResBody.msg "No Github Profile found"⟩
    ∧ githubRespond 500 "x" = ⟨404, ResBody.msg "No Github Profile found"⟩
    ∧ githubRespond 200 "body" = ⟨200, ResBody.text "body"⟩ := by
  decide

/-! ### Claim theorem C10 -/

/-- C10 evaluation: when the store operation of `GET /profile` (list all)
or `DELETE /profile` (cascading delete) throws, the catch block evaluates
`console.err(...)` — a member Node's console does not have — so the catch
block itself throws and no 500 response is sent; with a console that did
have `err`, the 500 would be sent. -/
theorem list_and_delete_catch_crash :
    getAllProfilesHandler nodeConsole (Except.error "db failure")
        = HandlerOutcome.uncaught consoleErrFailure
    ∧ deleteProfileHandler nodeConsole (Except.error "db failure")
        = HandlerOutcome.uncaught consoleErrFailure
    ∧ getAllProfilesHandler ⟨true⟩ (Except.error "db failure")
        = HandlerOutcome.responded ⟨500, ResBody.text "Server Error"⟩
    ∧ deleteProfileHandler ⟨true⟩ (Except.error "db failure")
        = HandlerOutcome.responded ⟨500, ResBody.text "Server Error"⟩
    ∧ getAllProfilesHandler nodeConsole (Except.ok [sampleProfile])
        = HandlerOutcome.responded ⟨200, ResBody.profilesJson [sampleProfile]⟩
    ∧ deleteProfileHandler nodeConsole (Except.ok ())
        = HandlerOutcome.responded ⟨200, ResBody.msg "User Deleted"⟩ := by
  decide

/-! ### Claim theorem C8 -/

theorem runChecks_mem (checks : List (String × String)) (b : Body) :
    ∀ c ∈ checks, checkViolated b c.1 = true → (c.2, c.1) ∈ runChecks checks b := by
  intro c hc hv
  rw [runChecks]
  apply List.mem_filterMap.mpr
  refine ⟨c, hc, ?_⟩
  simp [hv]

/-- C8: when at least one required field of an upsert or list-add request
is absent or empty, the handler answers 400 with the full collected error
list — one entry per violated check, not just the first — and returns the
store unchanged; every violated field contributes its error entry. -/
theorem validation_collect_all (st : Store) (uid : String) (b : Body) (fresh : String) :
    (runChecks upsertChecks b ≠ [] →
      postProfileHandler st uid b
        = (⟨400, ResBody.errorList (runChecks upsertChecks b)⟩, st))
    ∧ (runChecks experienceChecks b ≠ [] →
      putExperienceHandler st uid b fresh
        = (⟨400, ResBody.errorList (runChecks experienceChecks b)⟩, st))
    ∧ (runChecks educationChecks b ≠ [] →
      putEducationHandler st uid b fresh
        = (⟨400, ResBody.errorList (runChecks educationChecks b)⟩, st))
    ∧ (∀ c ∈ upsertChecks, checkViolated b c.1 = true → (c.2, c.1) ∈ runChecks upsertChecks b)
    ∧ (∀ c ∈ experienceChecks,
        checkViolated b c.1 = true → (c.2, c.1) ∈ runChecks experienceChecks b)
    ∧ (∀ c ∈ educationChecks,
        checkViolated b c.1 = true → (c.2, c.1) ∈ runChecks educationChecks b) := by
  refine ⟨?_, ?_, ?_, runChecks_mem upsertChecks b, runChecks_mem experienceChecks b,
    runChecks_mem educationChecks b⟩
  · intro h
    simp only [postProfileHandler]
    rw [if_neg h]
  · intro h
    simp only [putExperienceHandler]
    rw [if_neg h]
  · intro h
    simp only [putEducationHandler]
    rw [if_neg h]

/-- Concrete instance of `validation_collect_all` on the body
`{skills: "", title: "Dev"}`: each handler reports every one of its
violated required fields and leaves the store as it was. -/
theorem validation_collect_all_witness :
    postProfileHandler [sampleProfile] "u1" [("skills", ""), ("title", "Dev")]
      = (⟨400, ResBody.errorList
          [("Status is Required", "status"), ("Skill is Required", "skills")]⟩,
        [sampleProfile])
    ∧ putExperienceHandler [sampleProfile] "u1" [("skills", ""), ("title", "Dev")] "e9"
      = (⟨400, ResBody.errorList
          [("Company is required", "company"), ("From Date is required", "from")]⟩,
        [sampleProfile])
    ∧ putEducationHandler [sampleProfile] "u1" [("skills", ""), ("title", "Dev")] "e9"
      = (⟨400, ResBody.errorList
          [("School is required", "school"), ("Degree is required", "degree"),
            ("From Date is required", "from"),
            ("Field of Study is required", "fieldofstudy")]⟩,
        [sampleProfile]) := by
  have h := validation_collect_all [sampleProfile] "u1" [("skills", ""), ("title", "Dev")] "e9"
  refine ⟨?_, ?_, ?_⟩
  · rw [h.1 (by decide)]
    decide
  · rw [h.2.1 (by decide)]
    decide
  · rw [h.2.2.1 (by decide)]
    decide

/-! ### Claim theorem C6 -/

/-- The number of Profile documents of a given owner in the store. -/
def countByUser (st : Store) (uid : String) : Nat :=
  st.countP (fun p => p.user == uid)

theorem countByUser_updateFirst (uid : String) (f : ProfileFields) (hf : f.user = uid) :
    ∀ (st : Store) (u : String),
      countByUser (updateFirstByUser st uid f) u = countByUser st u := by
  intro st
  induction st with
  | nil => intro u; rfl
  | cons p ps ih =>
    intro u
    by_cases hp : (p.user == uid) = true
    · have hpu : p.user = uid := eq_of_beq hp
      rw [updateFirstByUser, if_pos hp]
      simp only [countByUser, List.countP_cons]
      have : (applySet p f).user = p.user := by
        show f.user = p.user
        rw [hf, hpu]
      rw [this]
    · rw [updateFirstByUser, if_neg hp]
      simp only [countByUser, List.countP_cons]
      have := ih u
      simp only [countByUser] at this
      rw [this]

theorem countByUser_of_find_none (st : Store) (uid : String)
    (h : findOneByUser st uid = none) : countByUser st uid = 0 := by
  rw [countByUser, List.countP_eq_zero]
  intro p hp
  exact List.find?_eq_none.mp h p hp

theorem updateFirst_length (uid : String) (f : ProfileFields) :
    ∀ st : Store, (updateFirstByUser st uid f).length = st.length := by
  intro st
  induction st with
  | nil => rfl
  | cons p ps ih =>
    by_cases hp : (p.user == uid) = true
    · rw [updateFirstByUser, if_pos hp, List.length_cons, List.length_cons]
    · rw [updateFirstByUser, if_neg hp, List.length_cons, List.length_cons, ih]

theorem postProfile_preserves_unique (st : Store) (uid : String) (b : Body)
    (h : ∀ u, countByUser st u ≤ 1) :
    ∀ u, countByUser (postProfileHandler st uid b).2 u ≤ 1 := by
  intro u
  by_cases hc : runChecks upsertChecks b = []
  · cases hfind : findOneByUser st uid with
    | some p =>
      have hstore : (postProfileHandler st uid b).2
          = updateFirstByUser st uid (buildProfileFields uid b) := by
        simp only [postProfileHandler]
        rw [if_pos hc, hfind]
      rw [hstore, countByUser_updateFirst uid _ rfl st u]
      exact h u
    | none =>
      have hstore : (postProfileHandler st uid b).2
          = st ++ [newProfileDoc (buildProfileFields uid b)] := by
        simp only [postProfileHandler]
        rw [if_pos hc, hfind]
      rw [hstore]
      simp only [countByUser, List.countP_append]
      by_cases hu : ((newProfileDoc (buildProfileFields uid b)).user == u) = true
      · have huid : uid = u := eq_of_beq hu
        have h0 : countByUser st u = 0 := huid ▸ countByUser_of_find_none st uid hfind
        simp only [countByUser] at h0
        rw [h0]
        simp [hu]
      · have hu' : ((newProfileDoc (buildProfileFields uid b)).user == u) = false := by
          simpa using hu
        have h1 := h u
        simp only [countByUser] at h1
        simp [hu']
        exact h1
  · have hstore : (postProfileHandler st uid b).2 = st := by
      simp only [postProfileHandler]
      rw [if_neg hc]
    rw [hstore]
    exact h u

/-- C6: running any sequence of `POST /profile` upserts sequentially
preserves the at-most-one-Profile-per-owner invariant, and an upsert for
an owner that already has a Profile updates it in place — the store never
grows. -/
theorem upsert_unique_owner (ops : List (String × Body)) (st : Store)
    (h : ∀ u, countByUser st u ≤ 1) :
    (∀ u, countByUser
        (ops.foldl (fun s op => (postProfileHandler s op.1 op.2).2) st) u ≤ 1)
    ∧ (∀ (st2 : Store) (uid2 : String) (b2 : Body),
        findOneByUser st2 uid2 ≠ none →
          ((postProfileHandler st2 uid2 b2).2).length = st2.length) := by
  constructor
  · induction ops generalizing st with
    | nil => exact h
    | cons op ops ih =>
      intro u
      rw [List.foldl_cons]
      exact ih _ (postProfile_preserves_unique st op.1 op.2 h) u
  · intro st2 uid2 b2 hfind
    by_cases hc : runChecks upsertChecks b2 = []
    · cases hf : findOneByUser st2 uid2 with
      | some p =>
        have hstore : (postProfileHandler st2 uid2 b2).2
            = updateFirstByUser st2 uid2 (buildProfileFields uid2 b2) := by
          simp only [postProfileHandler]
          rw [if_pos hc, hf]
        rw [hstore, updateFirst_length]
      | none => exact absurd hf hfind
    · have hstore : (postProfileHandler st2 uid2 b2).2 = st2 := by
        simp only [postProfileHandler]
        rw [if_neg hc]
      rw [hstore]

/-- Concrete instance of `upsert_unique_owner`: two successive upserts for
owner `u7` starting from the empty store leave at most one document for
`u7`. -/
theorem upsert_unique_owner_witness :
    countByUser
      ([("u7", [("status", "dev"), ("skills", "js,node")]),
        ("u7", [("status", "lead"), ("skills", "go")])].foldl
        (fun s op => (postProfileHandler s op.1 op.2).2) []) "u7" ≤ 1 :=
  (upsert_unique_owner
    [("u7", [("status", "dev"), ("skills", "js,node")]),
      ("u7", [("status", "lead"), ("skills", "go")])]
    [] (fun _ => Nat.zero_le 1)).1 "u7"

/-! ### Claim C1: counterexample and amended frame property -/

/-- An upsert body that supplies the required fields and one social key
(`twitter`) but not `youtube`. -/
def socialUpdateBody : Body :=
  [("status", "dev"), ("skills", "js"), ("twitter", "tw.com/x")]

/-- Counterexample to C1 as stated: `sampleProfile` stores
`social.youtube`; an upsert whose body does not supply `youtube` does NOT
retain it — after the update the stored document's `social.youtube` is
gone, because the handler rebuilds `profileFields.social` from scratch and
`$set` replaces the whole nested object. -/
theorem social_wiped_on_update :
    (findOneByUser (postProfileHandler [sampleProfile] "u1" socialUpdateBody).2 "u1").map
        (fun p => p.social.youtube) = some none
    ∧ sampleProfile.social.youtube = some "yt.com/a"
    ∧ lookupField socialUpdateBody "youtube" = none
    ∧ (findOneByUser (postProfileHandler [sampleProfile] "u1" socialUpdateBody).2 "u1").map
        (fun p => p.social.twitter) = some (some "tw.com/x") := by
  decide

theorem setOr_keepIfTruthy (v old : Option String) (h : truthy v = false) :
    setOr (keepIfTruthy v) old = old := by
  simp [keepIfTruthy, h, setOr]

theorem setOr_projectSkillsField (v : Option String) (old : Option (List String))
    (h : truthy v = false) :
    setOr (projectSkillsField v) old = old := by
  simp [projectSkillsField, h, setOr]

theorem keepIfTruthy_of_falsy (v : Option String) (h : truthy v = false) :
    keepIfTruthy v = none := by
  simp [keepIfTruthy, h]

/-- C1 amended: on an upsert over an existing Profile, every scalar field
not supplied (truthy) in the request keeps its stored value, and the
entry lists are untouched — but the social mapping is replaced wholesale
by the object projected from this request alone, so any social key the
request does not supply ends up absent, whatever was stored before. -/
theorem upsert_update_frame (p : StoredProfile) (uid : String) (b : Body) :
    (truthy (lookupField b "company") = false →
      (applySet p (buildProfileFields uid b)).company = p.company)
    ∧ (truthy (lookupField b "website") = false →
      (applySet p (buildProfileFields uid b)).website = p.website)
    ∧ (truthy (lookupField b "location") = false →
      (applySet p (buildProfileFields uid b)).location = p.location)
    ∧ (truthy (lookupField b "bio") = false →
      (applySet p (buildProfileFields uid b)).bio = p.bio)
    ∧ (truthy (lookupField b "status") = false →
      (applySet p (buildProfileFields uid b)).status = p.status)
    ∧ (truthy (lookupField b "githubusername") = false →
      (applySet p (buildProfileFields uid b)).githubusername = p.githubusername)
    ∧ (truthy (lookupField b "skills") = false →
      (applySet p (buildProfileFields uid b)).skills = p.skills)
    ∧ (applySet p (buildProfileFields uid b)).experience = p.experience
    ∧ (applySet p (buildProfileFields uid b)).education = p.education
    ∧ (applySet p (buildProfileFields uid b)).social = buildSocial b
    ∧ (truthy (lookupField b "youtube") = false →
      (applySet p (buildProfileFields uid b)).social.youtube = none)
    ∧ (truthy (lookupField b "facebook") = false →
      (applySet p (buildProfileFields uid b)).social.facebook = none)
    ∧ (truthy (lookupField b "twitter") = false →
      (applySet p (buildProfileFields uid b)).social.twitter = none)
    ∧ (truthy (lookupField b "instagram") = false →
      (applySet p (buildProfileFields uid b)).social.instagram = none)
    ∧ (truthy (lookupField b "linkedin") = false →
      (applySet p (buildProfileFields uid b)).social.linkedin = none) := by
  refine ⟨fun h => setOr_keepIfTruthy _ _ h, fun h => setOr_keepIfTruthy _ _ h,
    fun h => setOr_keepIfTruthy _ _ h, fun h => setOr_keepIfTruthy _ _ h,
    fun h => setOr_keepIfTruthy _ _ h, fun h => setOr_keepIfTruthy _ _ h,
    fun h => setOr_projectSkillsField _ _ h, rfl, rfl, rfl,
    fun h => keepIfTruthy_of_falsy _ h, fun h => keepIfTruthy_of_falsy _ h,
    fun h => keepIfTruthy_of_falsy _ h, fun h => keepIfTruthy_of_falsy _ h,
    fun h => keepIfTruthy_of_falsy _ h⟩

/-- Concrete instance of `upsert_update_frame` at `sampleProfile` and
`socialUpdateBody`: the unsupplied `company` keeps its stored value while
the unsupplied `youtube` social key is cleared. -/
theorem upsert_update_frame_witness :
    (applySet sampleProfile (buildProfileFields "u1" socialUpdateBody)).company
        = sampleProfile.company
    ∧ (applySet sampleProfile (buildProfileFields "u1" socialUpdateBody)).social.youtube
        = none := by
  obtain ⟨hc, _, _, _, _, _, _, _, _, _, hy, _, _, _, _⟩ :=
    upsert_update_frame sampleProfile "u1" socialUpdateBody
  exact ⟨hc (by decide), hy (by decide)⟩

end DevConnector
